import Mathlib

/-!
Verification development for the `simple-xcm` package of the xcm-js-tools
repository (source of truth: `src/packages/simple-xcm/simplexcm.ts`).

The embedding is shallow: TypeScript classes become Lean structures, thrown
exceptions become `Except` errors (each `throw` site gets its own structured
error constructor carrying the interpolated data), JavaScript `bigint`
arithmetic becomes `Int`/`Nat` arithmetic (both are arbitrary precision, so no
modular reduction is needed), and the in-place mutation of the fee asset's
amount inside the prepared asset vector becomes an explicit point update at
the fee asset's index (the TypeScript code mutates through the aliased
`feeAnyAssetRef` handle, which denotes exactly the vector entry at
`feeAssetIndex`).

Junction payloads are abstracted to opaque tags: none of the verified
functions inspects a junction beyond equality, so the version-specific
payload shapes (and hence the always-succeeding `sanitizeLookup` /
`sanitizeInterior` structural validations on them) are collapsed.

Helper functions imported by `simplexcm.ts` from packages whose sources are
not part of this repository snapshot (`@open-xcm-tools/xcm-util`,
`@open-xcm-tools/xcm-estimate`, `./registry`, `./main-utils`) are modelled
from the specification; each such definition says so in its doc comment.
-/

namespace XcmTools

/-- One atomic step of an interior path.  The payload (parachain id, pallet
instance, account id, ...) is abstracted to an opaque tag, compared by a
numeric order standing for the canonical kind-precedence/payload order. -/
structure Junction where
  tag : Nat
deriving DecidableEq, Repr

/-- An ordered sequence of junctions (the source's `InteriorLocation`; its
versioned `here`/`x1`/... shape is collapsed to the junction list that
`toJunctions` extracts from it). -/
abbrev InteriorLocation := List Junction

/-- `{ parents, interior }` (source `Location`; `parents` is a non-negative
`bigint`, modelled as `Nat`). -/
structure Location where
  parents : Nat
  interior : InteriorLocation
deriving DecidableEq, Repr

/-- Fungibility tagged union: `{fungible: bigint}` or `{nonFungible: ...}`
(non-fungible instance descriptor abstracted to a tag). -/
inductive Fungibility where
  | fungible (amount : Int)
  | nonFungible (instanceTag : Nat)
deriving DecidableEq, Repr

/-- A resolved asset `{ id, fun }`; the asset id wraps a `Location`. -/
structure Asset where
  id : Location
  fun_ : Fungibility
deriving DecidableEq, Repr

/-- A location lookup: a registry name (string), an explicit relative
location, or a bare interior path. -/
inductive LocationLookup where
  | name (key : String)
  | loc (l : Location)
  | interior (i : InteriorLocation)
deriving DecidableEq, Repr

/-- An interior-location lookup: a registry name or an interior path. -/
inductive InteriorLocationLookup where
  | name (key : String)
  | interior (i : InteriorLocation)
deriving DecidableEq, Repr

/-- An asset lookup: an asset-id lookup plus a fungibility. -/
structure AssetLookup where
  id : LocationLookup
  fun_ : Fungibility
deriving DecidableEq, Repr

/-- A transfer origin. `{System: {Signed: account}}` is the shape built by
`prepareTransferParams`; other origin variants are abstracted to a tag. -/
inductive Origin where
  | system (signedAccount : String)
  | other (tag : Nat)
deriving DecidableEq, Repr

/-- Origin as supplied in `TransferParams`: `Origin | RegistryLookup`. -/
inductive OriginLookup where
  | name (key : String)
  | origin (o : Origin)
deriving DecidableEq, Repr

/-- One sub-error inside an aggregated `FeeEstimationErrors`: either a
`TooExpensiveFeeError` carrying its missing amount, or any other error kind
(abstracted to a tag). -/
inductive EstimationSubError where
  | tooExpensive (missingAmount : Int)
  | other (tag : Nat)
deriving DecidableEq, Repr

/-- Structured model of every `throw` site reachable in the verified code. -/
inductive Err where
  | unknownNamedLocation (key : String)
  | xcmVersionTooBig (requested maxSupported : Nat)
  | noKnownTransferBackend (chainName : String)
  | feeAssetNotFound (chainName : String)
  | beneficiaryNotInterior (parents : Nat)
  | invalidAmountFormat
  | incorrectDecimals
  | decimalPartTooLong (len : Nat) (decimals : Int)
  | noLocationToAccountApi (chainName : String)
  | locationToAccountFailed (chainName : String) (msg : String)
  | validationError
  | ascendsAboveRoot
  | conflictingFungibility
  | feeEstimationErrors (errors : List EstimationSubError)
  | otherEstimatorError (tag : Nat)
deriving DecidableEq, Repr

/-- Result of a single `tryEstimateExtrinsicXcmFees` call:
`{value: bigint} | {error: TooExpensiveFeeError}`. -/
inductive FeeResult where
  | value (v : Int)
  | error (missingAmount : Int)
deriving DecidableEq, Repr

/-- Outcome of one `estimator.estimateExtrinsicFees` call: a concrete fee,
an aggregated `FeeEstimationErrors` throw, or any other throw. -/
inductive EstimatorOutcome where
  | success (value : Int)
  | aggregateFailure (errors : List EstimationSubError)
  | otherFailure (tag : Nat)
deriving DecidableEq, Repr

/-- Mutable state of a `SimpleXcm` instance relevant to `enforceXcmVersion`:
the estimator's (maximum supported) XCM version and the active version. -/
structure SimpleXcmVersionState where
  estimatorXcmVersion : Nat
  xcmVersion : Nat
deriving DecidableEq, Repr

/-- `SimpleXcm.enforceXcmVersion`.  Returned as (post-state, thrown error):
on a throw the instance state is returned unchanged, mirroring that the
TypeScript method throws before assigning `this.xcmVersion`. -/
def enforceXcmVersion (st : SimpleXcmVersionState) (version : Nat) :
    SimpleXcmVersionState × Option Err :=
  if version > st.estimatorXcmVersion then
    (st, some (.xcmVersionTooBig version st.estimatorXcmVersion))
  else
    ({ st with xcmVersion := version }, none)

/-- Is a sub-error a `TooExpensiveFeeError`?  (The `instanceof` filter.) -/
def EstimationSubError.isTooExpensiveFee : EstimationSubError → Bool
  | .tooExpensive _ => true
  | .other _ => false

/-- The missing amount of a sub-error (0 for non-shortfall kinds; the
reduction in the source only ever reads it from `TooExpensiveFeeError`s). -/
def EstimationSubError.missingAmountOf : EstimationSubError → Int
  | .tooExpensive m => m
  | .other _ => 0

/-- `SimpleXcm.tryEstimateExtrinsicXcmFees`, as a function of the outcome of
the wrapped `estimator.estimateExtrinsicFees` call: a success is returned as
a value; a `FeeEstimationErrors` aggregate has its `TooExpensiveFeeError`
members filtered out and, when at least one is present, their missing
amounts are summed into a single recoverable `TooExpensiveFeeError`;
otherwise the caught error is rethrown. -/
def tryEstimateExtrinsicXcmFees (outcome : EstimatorOutcome) :
    Except Err FeeResult :=
  match outcome with
  | .success v => .ok (.value v)
  | .aggregateFailure errors =>
      let tooExpensiveErrors := errors.filter (·.isTooExpensiveFee)
      if tooExpensiveErrors.length > 0 then
        .ok (.error (tooExpensiveErrors.foldl
          (fun sum e => sum + e.missingAmountOf) 0))
      else
        .error (.feeEstimationErrors errors)
  | .otherFailure tag => .error (.otherEstimatorError tag)

/-- Length of the longest common leading subsequence of two junction
sequences. -/
def commonPfxLen : List Junction → List Junction → Nat
  | a :: as, b :: bs => if a = b then commonPfxLen as bs + 1 else 0
  | _, _ => 0

/-- Modelled from the spec: `locationRelativeToPrefix` from
`@open-xcm-tools/xcm-util` (not under src/).  Given an absolute universal
location and the calling chain's own universal location (the context
argument), take the longest common leading junction subsequence; the result
ascends past the context's remaining junctions and descends along the
absolute location's remaining junctions. -/
def locationRelativeToPfx (loc : InteriorLocation) (ctx : InteriorLocation) :
    Location :=
  let common := commonPfxLen loc ctx
  { parents := ctx.length - common, interior := loc.drop common }

/-- Modelled from the spec: `relativeLocationToUniversal` from
`@open-xcm-tools/xcm-util` (not under src/).  Drop the last `parents`
junctions from the context and append the relative interior; fails when
`parents` exceeds the context's length (ascending above the universal
root). -/
def relativeLocationToUniversal (relativeLocation : Location)
    (ctx : InteriorLocation) : Except Err InteriorLocation :=
  if ctx.length < relativeLocation.parents then
    .error .ascendsAboveRoot
  else
    .ok (ctx.take (ctx.length - relativeLocation.parents) ++
      relativeLocation.interior)

/-- Modelled from the spec: the `Registry` lookup interface
(`./registry` is not under src/): known universal locations by name and
known relative locations by name. -/
structure RegistryModel where
  universalLocations : String → Option InteriorLocation
  relativeLocations : String → Option Location

/-- A chain's identity: its name and its own universal location. -/
structure ChainIdentity where
  name : String
  universalLocation : InteriorLocation

/-- `SimpleXcm.resolveRelativeLocation`.  A string key is looked up first
among known universal locations (then re-expressed relative to the chain's
universal-location prefix), then among known relative locations, and
otherwise rejected as an unknown named location.  An explicit location is
returned as-is; a bare interior path is re-expressed relative to the chain's
prefix (the `sanitizeLookup`/`sanitizeInterior` payload validations are
vacuous under the abstract junction model). -/
def resolveRelativeLocation (registry : RegistryModel)
    (identity : ChainIdentity) : LocationLookup → Except Err Location
  | .name key =>
      match registry.universalLocations key with
      | some universalLocation =>
          .ok (locationRelativeToPfx universalLocation
            identity.universalLocation)
      | none =>
          match registry.relativeLocations key with
          | some relativeLocation => .ok relativeLocation
          | none => .error (.unknownNamedLocation key)
  | .loc l => .ok l
  | .interior i => .ok (locationRelativeToPfx i identity.universalLocation)

/-- `SimpleXcm.resolveUniversalLocation`.  A string key is looked up first
among known universal locations (returned as-is), then among known relative
locations (lifted to universal form against the chain's context), and
otherwise rejected as an unknown named location.  An interior path is
returned as-is. -/
def resolveUniversalLocation (registry : RegistryModel)
    (identity : ChainIdentity) :
    InteriorLocationLookup → Except Err InteriorLocation
  | .name key =>
      match registry.universalLocations key with
      | some universalLocation => .ok universalLocation
      | none =>
          match registry.relativeLocations key with
          | some relativeLocation =>
              relativeLocationToUniversal relativeLocation
                identity.universalLocation
          | none => .error (.unknownNamedLocation key)
  | .interior i => .ok i

/-- `SimpleXcm.resolveRelativeAsset`: resolve the asset's id lookup, keep
its fungibility. -/
def resolveRelativeAsset (registry : RegistryModel)
    (identity : ChainIdentity) (lookup : AssetLookup) : Except Err Asset :=
  match resolveRelativeLocation registry identity lookup.id with
  | .ok id => .ok { id := id, fun_ := lookup.fun_ }
  | .error e => .error e

/-- Modelled from the spec: junction comparison from
`@open-xcm-tools/xcm-util` asset-sort (only re-exports are under src/).
Under the abstract junction model the canonical kind/payload order collapses
to the numeric order of the opaque tags. -/
def compareJunction (a b : Junction) : Ordering :=
  compare a.tag b.tag

/-- Modelled from the spec: interior-location comparison — lexicographic
over the junction sequences, shorter sequences first on equal prefixes. -/
def compareInteriorLocation : InteriorLocation → InteriorLocation → Ordering
  | [], [] => .eq
  | [], _ :: _ => .lt
  | _ :: _, [] => .gt
  | a :: as, b :: bs =>
      match compareJunction a b with
      | .eq => compareInteriorLocation as bs
      | o => o

/-- Modelled from the spec: location comparison — `parents` ascending, then
interior-location order. -/
def compareLocation (a b : Location) : Ordering :=
  match compare a.parents b.parents with
  | .eq => compareInteriorLocation a.interior b.interior
  | o => o

/-- Modelled from the spec: "any asset" comparison — by asset id only;
fungibility is never a sort key. -/
def compareAnyAsset (a b : Asset) : Ordering :=
  compareLocation a.id b.id

/-- Insertion step of a stable insertion sort under `compareAnyAsset`. -/
def insertAsset (a : Asset) : List Asset → List Asset
  | [] => [a]
  | b :: bs =>
      if compareAnyAsset a b = .lt then a :: b :: bs else b :: insertAsset a bs

/-- Modelled from the spec: the sorting half of `sortAndDeduplicateAssets`
(a stable sort by the asset comparator). -/
def sortAssets : List Asset → List Asset
  | [] => []
  | a :: rest => insertAsset a (sortAssets rest)

/-- Modelled from the spec: the merging half of `sortAndDeduplicateAssets` —
adjacent (post-sort) equal-id entries are merged: fungible amounts are
summed; a fungible and a non-fungible sharing an id is a conflicting
fungibility error. -/
def dedupSortedAssets : List Asset → Except Err (List Asset)
  | [] => .ok []
  | a :: rest =>
      match dedupSortedAssets rest with
      | .error e => .error e
      | .ok [] => .ok [a]
      | .ok (b :: tail) =>
          if compareAnyAsset a b = .eq then
            match a.fun_, b.fun_ with
            | .fungible x, .fungible y =>
                .ok ({ id := a.id, fun_ := .fungible (x + y) } :: tail)
            | _, _ => .error .conflictingFungibility
          else
            .ok (a :: b :: tail)

/-- A version-tagged canonical asset vector.  The per-version payload shapes
of `VersionedAssets` are collapsed: version conversion of the abstract
junctions cannot fail, so the tag is carried alongside the assets. -/
structure VersionedAssets where
  version : Nat
  assets : List Asset
deriving DecidableEq, Repr

/-- Modelled from the spec: `prepareAssetsForEncoding` from
`@open-xcm-tools/xcm-util` (not under src/) — canonicalize (sort and
deduplicate) then tag with the requested XCM version. -/
def prepareAssetsForEncoding (xcmVersion : Nat) (assets : List Asset) :
    Except Err VersionedAssets :=
  match dedupSortedAssets (sortAssets assets) with
  | .ok canonical => .ok { version := xcmVersion, assets := canonical }
  | .error e => .error e

/-- Helper for `findFeeAssetById`: scan with an explicit index. -/
def findFeeAssetByIdAux (feeAssetId : Location) :
    List Asset → Nat → Option (Asset × Nat)
  | [], _ => none
  | a :: rest, i =>
      if a.id = feeAssetId then some (a, i)
      else findFeeAssetByIdAux feeAssetId rest (i + 1)

/-- Modelled from the spec: `findFeeAssetById` from
`@open-xcm-tools/xcm-estimate` (not under src/) — locate the fee asset's
entry and index in the canonical vector by id equality (version conversion
of the fee asset id is the identity under the collapsed version model). -/
def findFeeAssetById (feeAssetId : Location) (assets : VersionedAssets) :
    Option (Asset × Nat) :=
  findFeeAssetByIdAux feeAssetId assets.assets 0

/-- An observable network interaction issued while preparing a transfer:
the `locationToAccountApi.convertLocation` runtime call, or a fee
dry-run/estimation call. -/
inductive NetEvent where
  | locationToAccountCall (loc : Location)
  | dryRunCall
deriving DecidableEq, Repr

/-- The context a `SimpleXcm` instance closes over during transfer
preparation: the registry, the chain identity, the active XCM version, and
the chain's `locationToAccountApi` runtime capability (presence flag plus an
oracle for the `convertLocation` responses, `Ok` hex account or `Err`
message). -/
structure SimpleXcmCtx where
  registry : RegistryModel
  identity : ChainIdentity
  xcmVersion : Nat
  hasLocationToAccountApi : Bool
  convertLocation : Location → Except String String

/-- The `convertLocation` runtime-call leg of `SimpleXcm.locationToAccountId`
(the non-string branch): issues the network call and either returns the
account hex or rethrows the conversion failure with the chain named.
Returns the emitted network events alongside the result. -/
def locationToAccountIdLoc (ctx : SimpleXcmCtx) (loc : Location) :
    List NetEvent × Except Err String :=
  match ctx.convertLocation loc with
  | .ok account => ([.locationToAccountCall loc], .ok account)
  | .error msg =>
      ([.locationToAccountCall loc],
        .error (.locationToAccountFailed ctx.identity.name msg))

/-- `SimpleXcm.locationToAccountId`: fails when the chain does not expose
the locationToAccount runtime API; a string lookup is first resolved to a
relative location and then converted (the source recurses with the resolved
location); an explicit location is converted directly. -/
def locationToAccountId (ctx : SimpleXcmCtx) (lookup : LocationLookup) :
    List NetEvent × Except Err String :=
  if ctx.hasLocationToAccountApi = false then
    ([], .error (.noLocationToAccountApi ctx.identity.name))
  else
    match lookup with
    | .name key =>
        match resolveRelativeLocation ctx.registry ctx.identity (.name key) with
        | .ok accountLocation => locationToAccountIdLoc ctx accountLocation
        | .error e => ([], .error e)
    | .loc l => locationToAccountIdLoc ctx l
    | .interior i =>
        locationToAccountIdLoc ctx
          (locationRelativeToPfx i ctx.identity.universalLocation)

/-- The user-facing transfer request (`TransferParams`). -/
structure TransferParams where
  origin : OriginLookup
  assets : List AssetLookup
  feeAssetId : LocationLookup
  destination : LocationLookup
  beneficiary : LocationLookup

/-- Modelled from the spec: `sanitizeTransferParams` from `./main-utils`
(not under src/) — structural validation of the raw request with no
resolution and no network interaction.  Under the typed embedding the
lookup shapes are well-formed by construction, so the representable
structural failure is an empty asset list. -/
def sanitizeTransferParams (tp : TransferParams) : Except Err Unit :=
  if tp.assets.isEmpty then .error .validationError else .ok ()

/-- The backend-ready transfer parameters (`PreparedTransferParams`).
`feeAnyAssetRef` is the aliased handle into the canonical vector; in the
embedding it is the entry at `feeAssetIndex`, and every update keeps the
two in sync exactly as aliasing does in the source. -/
structure PreparedTransferParams where
  origin : Origin
  assets : VersionedAssets
  feeAssetId : Location
  feeAssetIndex : Nat
  feeAnyAssetRef : Asset
  destination : Location
  beneficiary : Location
deriving DecidableEq, Repr

/-- Resolve every asset lookup of the request (`transferParams.assets.map`
with the first resolution failure propagated). -/
def resolveAssetList (registry : RegistryModel) (identity : ChainIdentity) :
    List AssetLookup → Except Err (List Asset)
  | [] => .ok []
  | a :: rest =>
      match resolveRelativeAsset registry identity a with
      | .error e => .error e
      | .ok resolved =>
          match resolveAssetList registry identity rest with
          | .error e => .error e
          | .ok tail => .ok (resolved :: tail)

/-- The pure tail of `prepareTransferParams` (everything after origin
resolution and request validation): resolve destination, beneficiary and
fee asset id; resolve the asset lookups; canonicalize and version-tag the
asset vector; locate the fee asset by id (failing when it is not part of
the transfer, with the chain named). -/
def prepareTransferParamsPure (ctx : SimpleXcmCtx) (tp : TransferParams)
    (origin : Origin) : Except Err PreparedTransferParams :=
  match resolveRelativeLocation ctx.registry ctx.identity tp.destination with
  | .error e => .error e
  | .ok destination =>
  match resolveRelativeLocation ctx.registry ctx.identity tp.beneficiary with
  | .error e => .error e
  | .ok beneficiary =>
  match resolveRelativeLocation ctx.registry ctx.identity tp.feeAssetId with
  | .error e => .error e
  | .ok feeAssetId =>
  match resolveAssetList ctx.registry ctx.identity tp.assets with
  | .error e => .error e
  | .ok resolvedAssets =>
  match prepareAssetsForEncoding ctx.xcmVersion resolvedAssets with
  | .error e => .error e
  | .ok assets =>
  match findFeeAssetById feeAssetId assets with
  | none => .error (.feeAssetNotFound ctx.identity.name)
  | some (feeAnyAsset, feeAssetIndex) =>
      .ok { origin := origin, assets := assets, feeAssetId := feeAssetId,
            feeAssetIndex := feeAssetIndex, feeAnyAssetRef := feeAnyAsset,
            destination := destination, beneficiary := beneficiary }

/-- `prepareTransferParams`.  Mirrors the source's order: the origin is
resolved first (a string origin triggers the location-to-account runtime
call), `sanitizeTransferParams` validates the raw request only afterwards,
and then the pure resolution/canonicalization tail runs.  Returns the
network events emitted before the function returned or threw. -/
def prepareTransferParams (ctx : SimpleXcmCtx) (tp : TransferParams) :
    List NetEvent × Except Err PreparedTransferParams :=
  let originStep : List NetEvent × Except Err Origin :=
    match tp.origin with
    | .name key =>
        match locationToAccountId ctx (.name key) with
        | (events, .ok account) => (events, .ok (.system account))
        | (events, .error e) => (events, .error e)
    | .origin o => ([], .ok o)
  match originStep with
  | (events, .error e) => (events, .error e)
  | (events, .ok origin) =>
      match sanitizeTransferParams tp with
      | .error e => (events, .error e)
      | .ok _ => (events, prepareTransferParamsPure ctx tp origin)

/-- The two transfer backend implementations of the source. -/
inductive TransferBackendKind where
  | palletXcm
  | xTokens
deriving DecidableEq, Repr

/-- The chain metadata `#transferBackend` inspects: whether the chain's
pallet-xcm transaction module has the `transferAssets` extrinsic, and the
declared pallet names (already in api-tx form; `palletApiTxName` from
`@open-xcm-tools/xcm-util` is absorbed into this assumption). -/
structure ChainTxMetadata where
  palletXcmHasTransferAssets : Bool
  palletNames : List String

/-- The `switch (palletName)` body of the scan loop in
`SimpleXcm.#transferBackend`: in the source the only non-default case
(`case 'xTokens': backend = new XTokensBackend(this)`) is commented out
behind `// TODO test XTokensBackend`, so no pallet name is recognized and
the scan never assigns a backend. -/
def recognizedAlternateBackend (palletName : String) :
    Option TransferBackendKind :=
  match palletName with
  | _ => none

/-- `SimpleXcm.#transferBackend`: the primary pallet-xcm backend when
`transferAssets` is available; otherwise the declared pallets are scanned
through `recognizedAlternateBackend`, and with no recognized backend the
selection fails naming the chain. -/
def transferBackend (chainName : String) (meta : ChainTxMetadata) :
    Except Err TransferBackendKind :=
  if meta.palletXcmHasTransferAssets then
    .ok .palletXcm
  else
    match meta.palletNames.findSome? recognizedAlternateBackend with
    | some backend => .ok backend
    | none => .error (.noKnownTransferBackend chainName)

/-- Add `delta` to an asset's fungible amount (no-op on a non-fungible
entry, mirroring the `'fungible' in fun` guard). -/
def addToAsset (delta : Int) (a : Asset) : Asset :=
  match a.fun_ with
  | .fungible x => { a with fun_ := .fungible (x + delta) }
  | .nonFungible _ => a

/-- Add `delta` to the fungible amount of the asset at position `i` (the
embedding of `feeAnyAssetRef.fun.fungible += delta`, where the handle
aliases the vector entry at the fee asset index). -/
def addAtIndex (delta : Int) : List Asset → Nat → List Asset
  | [], _ => []
  | a :: rest, 0 => addToAsset delta a :: rest
  | a :: rest, i + 1 => a :: addAtIndex delta rest i

/-- The `feeAnyAssetRef.fun.fungible += delta` mutation on the prepared
parameters: the vector entry at `feeAssetIndex` and the aliased handle are
updated together. -/
def addToFeeAsset (prep : PreparedTransferParams) (delta : Int) :
    PreparedTransferParams :=
  { prep with
    assets := { prep.assets with
                assets := addAtIndex delta prep.assets.assets prep.feeAssetIndex },
    feeAnyAssetRef := addToAsset delta prep.feeAnyAssetRef }

/-- Result of the `do`/`while` fee-convergence loop of
`PalletXcmBackend.composeTransfer`, run against a finite script of
estimation responses. -/
inductive LoopResult where
  /-- The estimator returned a concrete value: the loop exits with the
  final prepared parameters and the script portion it never consumed. -/
  | converged (prep : PreparedTransferParams)
      (unconsumed : List (Except Err FeeResult))
  /-- `tryEstimateExtrinsicXcmFees` threw: the whole composition aborts. -/
  | fatal (e : Err) (prep : PreparedTransferParams)
      (unconsumed : List (Except Err FeeResult))
  /-- The finite script ran out while the loop was still iterating (the
  source loop would keep dry-running). -/
  | outOfResponses (prep : PreparedTransferParams)
deriving Repr

/-- The fee-convergence loop of `PalletXcmBackend.composeTransfer`.  Each
script element is the result of one `tryEstimateExtrinsicXcmFees` call on
the candidate transaction of that iteration.  A shortfall
(`TooExpensiveFeeError`) adds its missing amount to the fee asset's
fungible amount and iterates; a concrete value adds the value and exits;
a thrown error propagates. -/
def feeConvergenceLoop (prep : PreparedTransferParams) :
    List (Except Err FeeResult) → LoopResult
  | [] => .outOfResponses prep
  | response :: rest =>
      match response with
      | .error e => .fatal e prep rest
      | .ok (.error missingAmount) =>
          feeConvergenceLoop (addToFeeAsset prep missingAmount) rest
      | .ok (.value v) => .converged (addToFeeAsset prep v) rest

/-- Modelled from the spec: `toJunctions` from `@open-xcm-tools/xcm-util`
(not under src/) — the junction sequence of an interior location, which the
abstract interior model already is. -/
def toJunctions (interior : InteriorLocation) : List Junction :=
  interior

/-- Modelled from the spec: the `location` constructor from
`@open-xcm-tools/xcm-util` (not under src/). -/
def location (parents : Nat) (junctions : List Junction) : Location :=
  { parents := parents, interior := junctions }

/-- The `xTokens.transferMultiassets` call arguments that
`XTokensBackend.composeTransfer` builds (weight limit is the constant
`Unlimited`; the XCM-version wrapping of the destination is collapsed). -/
structure XTokensTx where
  assets : VersionedAssets
  feeAssetIndex : Nat
  destination : Location
deriving DecidableEq, Repr

/-- `XTokensBackend.composeTransfer`, as a function of the prepared
parameters and of the single `tryEstimateExtrinsicXcmFees` result for its
dry-run candidate: a beneficiary with non-zero `parents` is rejected;
otherwise the combined destination concatenates the destination and
beneficiary junction sequences under the destination's `parents`; a
concrete estimated value is added to the fee asset's amount (a recoverable
shortfall result leaves the amount unchanged — this backend does not loop),
and a thrown estimation error propagates. -/
def xTokensComposeTransfer (prep : PreparedTransferParams)
    (estimate : Except Err FeeResult) : Except Err XTokensTx :=
  if prep.beneficiary.parents ≠ 0 then
    .error (.beneficiaryNotInterior prep.beneficiary.parents)
  else
    let beneficiaryJunctions := toJunctions prep.beneficiary.interior
    let destinationJunctions := toJunctions prep.destination.interior
    let destinationBeneficiary := location prep.destination.parents
      (destinationJunctions ++ beneficiaryJunctions)
    match estimate with
    | .error e => .error e
    | .ok result =>
        let prepFinal :=
          match result with
          | .value v => addToFeeAsset prep v
          | .error _ => prep
        .ok { assets := prepFinal.assets,
              feeAssetIndex := prepFinal.feeAssetIndex,
              destination := destinationBeneficiary }

/-- Decimal digit test (`\d` of the amount regex). -/
def isDigitChar (c : Char) : Bool :=
  decide ('0' ≤ c) && decide (c ≤ '9')

/-- Numeric value of a decimal digit character. -/
def digitVal (c : Char) : Nat :=
  c.toNat - Char.toNat '0'

/-- The non-negative integer denoted by a string of decimal digits (the
`BigInt(...)` constructor applied to a digit string). -/
def strNat (cs : List Char) : Nat :=
  cs.foldl (fun acc c => 10 * acc + digitVal c) 0

/-- The integer part of the amount regex
`^(0(\.\d+)?|[1-9]\d*(\.\d+)?)$`: a lone `0`, or a nonzero leading digit
followed by digits. -/
def intPartOk : List Char → Bool
  | [] => false
  | [c] => if c = '0' then true else isDigitChar c && decide (c ≠ '0')
  | c :: rest => isDigitChar c && decide (c ≠ '0') && rest.all isDigitChar

/-- `amount.split('.')` restricted to the first two parts: the characters
before the first dot, and (when a dot is present) the characters after it. -/
def splitAmount (cs : List Char) : List Char × Option (List Char) :=
  match cs.span (fun c => c ≠ '.') with
  | (integerPart, []) => (integerPart, none)
  | (integerPart, _ :: decimalPart) => (integerPart, some decimalPart)

/-- The amount regex `^(0(\.\d+)?|[1-9]\d*(\.\d+)?)$` as a predicate: a
valid integer part, optionally followed by a dot and a non-empty run of
digits (a second dot fails the digit test). -/
def numberRegExTest (cs : List Char) : Bool :=
  match splitAmount cs with
  | (integerPart, none) => intPartOk integerPart
  | (integerPart, some decimalPart) =>
      intPartOk integerPart && !decimalPart.isEmpty &&
        decimalPart.all isDigitChar

/-- `String.prototype.padEnd(targetLen, c)`: append `c` up to `targetLen`
characters (no-op when already long enough). -/
def padEnd (cs : List Char) (targetLen : Nat) (c : Char) : List Char :=
  cs ++ List.replicate (targetLen - cs.length) c

/-- `SimpleXcm.#convertFungibleAmount`: validate the amount against the
number regex, split it at the dot, validate the decimals bound
(`!Number.isSafeInteger(decimals) || decimals < 0 || decimals > 38` — on
mathematical integers this is `decimals < 0 ∨ decimals > 38`), pad the
decimal part with zeros to `decimals` characters, reject a decimal part
longer than `decimals`, and read the concatenated digits as an exact
arbitrary-precision integer. -/
def convertFungibleAmount (amount : String) (decimals : Int) :
    Except Err Nat :=
  if !numberRegExTest amount.data then
    .error .invalidAmountFormat
  else
    let parts := splitAmount amount.data
    let integerPart := parts.1
    let decimalPart := parts.2.getD []
    if decimals < 0 ∨ decimals > 38 then
      .error .incorrectDecimals
    else
      let paddedDecimalPart := padEnd decimalPart decimals.toNat '0'
      if paddedDecimalPart.length > decimals.toNat then
        .error (.decimalPartTooLong paddedDecimalPart.length decimals)
      else
        .ok (strNat (integerPart ++ paddedDecimalPart))

/-! Helper lemmas (shared; none of them is a claim's theorem). -/

theorem addToAsset_addToAsset (a : Asset) (x y : Int) :
    addToAsset y (addToAsset x a) = addToAsset (x + y) a := by
  rcases a with ⟨id, fn⟩
  cases fn <;> simp [addToAsset, add_assoc]

theorem addToAsset_id (a : Asset) (x : Int) : (addToAsset x a).id = a.id := by
  rcases a with ⟨id, fn⟩
  cases fn <;> simp [addToAsset]

theorem addAtIndex_addAtIndex (l : List Asset) (i : Nat) (x y : Int) :
    addAtIndex y (addAtIndex x l i) i = addAtIndex (x + y) l i := by
  induction l generalizing i with
  | nil => simp [addAtIndex]
  | cons a rest ih =>
      cases i with
      | zero => simp [addAtIndex, addToAsset_addToAsset]
      | succ j => simp [addAtIndex, ih]

theorem addAtIndex_length (l : List Asset) (i : Nat) (x : Int) :
    (addAtIndex x l i).length = l.length := by
  induction l generalizing i with
  | nil => simp [addAtIndex]
  | cons a rest ih =>
      cases i with
      | zero => simp [addAtIndex]
      | succ j => simp [addAtIndex, ih]

theorem addAtIndex_getElem_ne (l : List Asset) (i j : Nat) (x : Int)
    (h : j ≠ i) : (addAtIndex x l i)[j]? = l[j]? := by
  induction l generalizing i j with
  | nil => simp [addAtIndex]
  | cons a rest ih =>
      cases i with
      | zero =>
          cases j with
          | zero => exact absurd rfl h
          | succ k => simp [addAtIndex]
      | succ m =>
          cases j with
          | zero => simp [addAtIndex]
          | succ k =>
              simp only [addAtIndex, List.getElem?_cons_succ]
              exact ih m k (fun hk => h (by simp [hk]))

theorem addAtIndex_getElem_id (l : List Asset) (i j : Nat) (x : Int) :
    ((addAtIndex x l i)[j]?).map Asset.id = (l[j]?).map Asset.id := by
  induction l generalizing i j with
  | nil => simp [addAtIndex]
  | cons a rest ih =>
      cases i with
      | zero =>
          cases j with
          | zero => simp [addAtIndex, addToAsset_id]
          | succ k => simp [addAtIndex]
      | succ m =>
          cases j with
          | zero => simp [addAtIndex]
          | succ k => simpa [addAtIndex] using ih m k

theorem addToFeeAsset_addToFeeAsset (prep : PreparedTransferParams)
    (x y : Int) :
    addToFeeAsset (addToFeeAsset prep x) y = addToFeeAsset prep (x + y) := by
  simp [addToFeeAsset, addAtIndex_addAtIndex, addToAsset_addToAsset]

theorem feeConvergenceLoop_converged_shape
    (responses : List (Except Err FeeResult))
    (prep prep' : PreparedTransferParams)
    (rest : List (Except Err FeeResult))
    (h : feeConvergenceLoop prep responses = .converged prep' rest) :
    ∃ delta : Int, prep' = addToFeeAsset prep delta := by
  induction responses generalizing prep with
  | nil => simp [feeConvergenceLoop] at h
  | cons r rs ih =>
      match r with
      | .error e => simp [feeConvergenceLoop] at h
      | .ok (.error m) =>
          obtain ⟨delta, hd⟩ := ih (addToFeeAsset prep m)
            (by simpa [feeConvergenceLoop] using h)
          exact ⟨m + delta, by rw [hd, addToFeeAsset_addToFeeAsset]⟩
      | .ok (.value v) =>
          simp only [feeConvergenceLoop] at h
          cases h
          exact ⟨v, rfl⟩

theorem findFeeAssetByIdAux_eq_none_iff (fee : Location) (l : List Asset)
    (k : Nat) :
    findFeeAssetByIdAux fee l k = none ↔ ∀ a ∈ l, a.id ≠ fee := by
  induction l generalizing k with
  | nil => simp [findFeeAssetByIdAux]
  | cons a rest ih =>
      by_cases hid : a.id = fee
      · simp [findFeeAssetByIdAux, hid]
      · simp [findFeeAssetByIdAux, hid, ih]

theorem findFeeAssetByIdAux_some (fee : Location) (l : List Asset)
    (k : Nat) (a : Asset) (i : Nat)
    (h : findFeeAssetByIdAux fee l k = some (a, i)) :
    k ≤ i ∧ l[i - k]? = some a ∧ a.id = fee := by
  induction l generalizing k with
  | nil => simp [findFeeAssetByIdAux] at h
  | cons b rest ih =>
      rw [show findFeeAssetByIdAux fee (b :: rest) k =
            (if b.id = fee then some (b, k)
             else findFeeAssetByIdAux fee rest (k + 1)) from rfl] at h
      by_cases hid : b.id = fee
      · rw [if_pos hid] at h
        simp only [Option.some.injEq, Prod.mk.injEq] at h
        obtain ⟨rfl, rfl⟩ := h
        exact ⟨Nat.le_refl k, by simp, hid⟩
      · rw [if_neg hid] at h
        obtain ⟨hk, hget, hfee⟩ := ih (k + 1) h
        refine ⟨by omega, ?_, hfee⟩
        have hik : i - k = (i - (k + 1)) + 1 := by omega
        rw [hik, List.getElem?_cons_succ]
        exact hget

theorem strNat_foldl (ys : List Char) (a : Nat) :
    ys.foldl (fun acc c => 10 * acc + digitVal c) a =
      a * 10 ^ ys.length + strNat ys := by
  induction ys generalizing a with
  | nil => simp [strNat]
  | cons c cs ih =>
      have hs : strNat (c :: cs) = digitVal c * 10 ^ cs.length + strNat cs := by
        show List.foldl _ (10 * 0 + digitVal c) cs = _
        rw [ih]
        ring_nf
      show List.foldl _ (10 * a + digitVal c) cs = _
      rw [ih, hs]
      simp [List.length_cons, pow_succ]
      ring

theorem strNat_append (xs ys : List Char) :
    strNat (xs ++ ys) = strNat xs * 10 ^ ys.length + strNat ys := by
  show List.foldl _ 0 (xs ++ ys) = _
  rw [List.foldl_append]
  exact strNat_foldl ys _

theorem strNat_replicate_zero (k : Nat) :
    strNat (List.replicate k '0') = 0 := by
  induction k with
  | zero => rfl
  | succ n ih =>
      show List.foldl _ (10 * 0 + digitVal '0') (List.replicate n '0') = 0
      have : (10 * 0 + digitVal '0') = 0 := by decide
      rw [this]
      exact ih

theorem foldl_missingAmount (l : List EstimationSubError) (a : Int) :
    l.foldl (fun sum e => sum + e.missingAmountOf) a =
      a + (l.map (·.missingAmountOf)).sum := by
  induction l generalizing a with
  | nil => simp
  | cons e rest ih => simp [ih, add_assoc]

theorem findSome?_recognizedAlternateBackend_none (l : List String) :
    l.findSome? recognizedAlternateBackend = none := by
  induction l with
  | nil => rfl
  | cons a rest ih => simp [List.findSome?_cons, recognizedAlternateBackend, ih]

theorem locationToAccountId_no_dryRun (ctx : SimpleXcmCtx)
    (lookup : LocationLookup) :
    NetEvent.dryRunCall ∉ (locationToAccountId ctx lookup).1 := by
  have hloc : ∀ l : Location,
      NetEvent.dryRunCall ∉ (locationToAccountIdLoc ctx l).1 := by
    intro l
    unfold locationToAccountIdLoc
    cases ctx.convertLocation l <;> simp
  unfold locationToAccountId
  by_cases hapi : ctx.hasLocationToAccountApi = false
  · simp [hapi]
  · cases lookup with
    | name key =>
        simp only [hapi, if_false]
        cases resolveRelativeLocation ctx.registry ctx.identity (.name key) with
        | ok l => simpa using hloc l
        | error e => simp
    | loc l => simp only [hapi, if_false]; exact hloc l
    | interior i => simp only [hapi, if_false]; exact hloc _

theorem prepareTransferParams_no_dryRun (ctx : SimpleXcmCtx)
    (tp : TransferParams) :
    NetEvent.dryRunCall ∉ (prepareTransferParams ctx tp).1 := by
  unfold prepareTransferParams
  cases tp.origin with
  | name key =>
      have h := locationToAccountId_no_dryRun ctx (.name key)
      rcases hx : locationToAccountId ctx (.name key) with ⟨events, res⟩
      rw [hx] at h
      dsimp only
      rw [hx]
      cases res with
      | ok account => cases sanitizeTransferParams tp <;> simpa using h
      | error e => simpa using h
  | origin o =>
      simp only []
      cases sanitizeTransferParams tp <;> simp

/-! Claim theorems. -/

/-- Claim C10: `enforceXcmVersion(version)` throws when `version` exceeds
the estimator's maximum supported XCM version, leaving the active
`xcmVersion` unchanged; otherwise it sets the active `xcmVersion` to
exactly the requested version. -/
theorem c10_enforceXcmVersion (st : SimpleXcmVersionState) (version : Nat) :
    (version > st.estimatorXcmVersion →
      enforceXcmVersion st version =
        (st, some (.xcmVersionTooBig version st.estimatorXcmVersion)) ∧
      (enforceXcmVersion st version).1.xcmVersion = st.xcmVersion) ∧
    (version ≤ st.estimatorXcmVersion →
      enforceXcmVersion st version =
        ({ st with xcmVersion := version }, none)) := by
  constructor
  · intro h
    simp [enforceXcmVersion, h]
  · intro h
    simp [enforceXcmVersion, Nat.not_lt.mpr h]

/-- Witness for C10 at concrete inputs: requesting version 5 on a chain
supporting at most 4 throws and leaves the active version at 4; requesting
version 3 succeeds and sets the active version to 3. -/
theorem c10_enforceXcmVersion_witness :
    enforceXcmVersion { estimatorXcmVersion := 4, xcmVersion := 4 } 5 =
      ({ estimatorXcmVersion := 4, xcmVersion := 4 },
        some (.xcmVersionTooBig 5 4)) ∧
    enforceXcmVersion { estimatorXcmVersion := 4, xcmVersion := 2 } 3 =
      ({ estimatorXcmVersion := 4, xcmVersion := 3 }, none) :=
  ⟨((c10_enforceXcmVersion { estimatorXcmVersion := 4, xcmVersion := 4 } 5).1
      (by decide)).1,
    (c10_enforceXcmVersion { estimatorXcmVersion := 4, xcmVersion := 2 } 3).2
      (by decide)⟩

/-- Counterexample to claim C2: an aggregate holding one too-expensive
shortfall (missing 5) and one sub-failure of a different kind is converted
into a recoverable shortfall of 5 by `tryEstimateExtrinsicXcmFees`, not
rethrown as a fatal aggregate. -/
theorem c2_mixed_aggregate_counterexample :
    tryEstimateExtrinsicXcmFees
        (.aggregateFailure [.tooExpensive 5, .other 0]) =
      .ok (.error 5) ∧
    tryEstimateExtrinsicXcmFees
        (.aggregateFailure [.tooExpensive 5, .other 0]) ≠
      .error (.feeEstimationErrors [.tooExpensive 5, .other 0]) := by
  refine ⟨rfl, ?_⟩
  intro h
  rw [show tryEstimateExtrinsicXcmFees
        (.aggregateFailure [.tooExpensive 5, .other 0]) =
      .ok (.error 5) from rfl] at h
  exact Except.noConfusion h

/-- Claim C2 as amended: when at least one sub-failure of the aggregate is
a too-expensive shortfall, the too-expensive sub-failures (and only those)
are summed into a single recoverable shortfall regardless of the other
sub-failures' kinds; only when no sub-failure is too-expensive is the whole
aggregate rethrown as fatal. -/
theorem c2_shortfall_aggregation (errors : List EstimationSubError) :
    ((∃ e ∈ errors, e.isTooExpensiveFee) →
      tryEstimateExtrinsicXcmFees (.aggregateFailure errors) =
        .ok (.error
          (((errors.filter (·.isTooExpensiveFee)).map
            (·.missingAmountOf)).sum))) ∧
    ((∀ e ∈ errors, e.isTooExpensiveFee = false) →
      tryEstimateExtrinsicXcmFees (.aggregateFailure errors) =
        .error (.feeEstimationErrors errors)) := by
  constructor
  · rintro ⟨e, he, hte⟩
    have hmem : e ∈ errors.filter (·.isTooExpensiveFee) :=
      List.mem_filter.mpr ⟨he, hte⟩
    have hlen : 0 < (errors.filter (·.isTooExpensiveFee)).length :=
      List.length_pos.mpr (fun hnil => by simp [hnil] at hmem)
    simp only [tryEstimateExtrinsicXcmFees, gt_iff_lt, hlen, if_true]
    rw [foldl_missingAmount]
    simp
  · intro h
    have hnil : errors.filter (·.isTooExpensiveFee) = [] :=
      List.filter_eq_nil_iff.mpr (fun e he => by simp [h e he])
    simp [tryEstimateExtrinsicXcmFees, hnil]

/-- Witness for C2's amended theorem: two shortfalls (3 and 4) mixed with a
different-kind sub-failure are summed into a recoverable shortfall of 7,
and an aggregate with no shortfall is rethrown as fatal. -/
theorem c2_shortfall_aggregation_witness :
    tryEstimateExtrinsicXcmFees
        (.aggregateFailure [.tooExpensive 3, .other 9, .tooExpensive 4]) =
      .ok (.error 7) ∧
    tryEstimateExtrinsicXcmFees (.aggregateFailure [.other 1]) =
      .error (.feeEstimationErrors [.other 1]) := by
  constructor
  · have h := (c2_shortfall_aggregation
      [.tooExpensive 3, .other 9, .tooExpensive 4]).1
      ⟨.tooExpensive 3, by simp, rfl⟩
    rw [h]
    rfl
  · exact (c2_shortfall_aggregation [.other 1]).2 (by simp [EstimationSubError.isTooExpensiveFee])

/-- Counterexample to claim C3: on a chain whose pallet-xcm lacks
`transferAssets` and whose declared pallets include the token pallet
`xTokens`, backend selection still fails with the no-known-backend error
instead of selecting the alternate backend (the `xTokens` case of the scan
is commented out in the source). -/
theorem c3_xTokens_not_selected_counterexample :
    transferBackend "TestChain"
        { palletXcmHasTransferAssets := false, palletNames := ["xTokens"] } =
      .error (.noKnownTransferBackend "TestChain") ∧
    transferBackend "TestChain"
        { palletXcmHasTransferAssets := false, palletNames := ["xTokens"] } ≠
      .ok .xTokens := by
  refine ⟨rfl, ?_⟩
  intro h
  rw [show transferBackend "TestChain"
        { palletXcmHasTransferAssets := false, palletNames := ["xTokens"] } =
      .error (.noKnownTransferBackend "TestChain") from rfl] at h
  exact Except.noConfusion h

/-- Claim C3 as amended: when the chain's pallet-xcm exposes the
`transferAssets` extrinsic, the primary pallet-xcm backend is selected;
otherwise selection always fails with the "no known XCM transfer backend"
condition naming the chain — the pallet scan recognizes no alternate
token-pallet name (the xTokens case is disabled in the source). -/
theorem c3_transferBackend_selection (chainName : String)
    (meta : ChainTxMetadata) :
    transferBackend chainName meta =
      if meta.palletXcmHasTransferAssets then .ok .palletXcm
      else .error (.noKnownTransferBackend chainName) := by
  by_cases h : meta.palletXcmHasTransferAssets
  · simp [transferBackend, h]
  · simp [transferBackend, h, findSome?_recognizedAlternateBackend_none]

/-- Claim C6: for a string (named) lookup, both resolvers try the
registry's known universal location first (`resolveRelativeLocation`
re-expresses it relative to the chain's universal-location prefix); only
when it is absent is the known relative location tried; when neither is
known, both fail with the unknown-named-location condition carrying the
key. -/
theorem c6_named_lookup_order (registry : RegistryModel)
    (identity : ChainIdentity) (key : String) :
    (∀ u, registry.universalLocations key = some u →
      resolveRelativeLocation registry identity (.name key) =
        .ok (locationRelativeToPfx u identity.universalLocation) ∧
      resolveUniversalLocation registry identity (.name key) = .ok u) ∧
    (∀ r, registry.universalLocations key = none →
      registry.relativeLocations key = some r →
      resolveRelativeLocation registry identity (.name key) = .ok r ∧
      resolveUniversalLocation registry identity (.name key) =
        relativeLocationToUniversal r identity.universalLocation) ∧
    (registry.universalLocations key = none →
      registry.relativeLocations key = none →
      resolveRelativeLocation registry identity (.name key) =
        .error (.unknownNamedLocation key) ∧
      resolveUniversalLocation registry identity (.name key) =
        .error (.unknownNamedLocation key)) := by
  refine ⟨?_, ?_, ?_⟩
  · intro u hu
    constructor
    · simp [resolveRelativeLocation, hu]
    · simp [resolveUniversalLocation, hu]
  · intro r hu hr
    constructor
    · simp [resolveRelativeLocation, hu, hr]
    · simp [resolveUniversalLocation, hu, hr]
  · intro hu hr
    constructor
    · simp [resolveRelativeLocation, hu, hr]
    · simp [resolveUniversalLocation, hu, hr]

/-- Witness for C6: with a registry that knows no named locations, both
resolvers reject the name "Acala" with the unknown-named-location
condition carrying "Acala". -/
theorem c6_named_lookup_order_witness :
    resolveRelativeLocation
        { universalLocations := fun _ => none,
          relativeLocations := fun _ => none }
        { name := "TestChain", universalLocation := [] } (.name "Acala") =
      .error (.unknownNamedLocation "Acala") ∧
    resolveUniversalLocation
        { universalLocations := fun _ => none,
          relativeLocations := fun _ => none }
        { name := "TestChain", universalLocation := [] } (.name "Acala") =
      .error (.unknownNamedLocation "Acala") :=
  (c6_named_lookup_order
    { universalLocations := fun _ => none, relativeLocations := fun _ => none }
    { name := "TestChain", universalLocation := [] } "Acala").2.2 rfl rfl

/-- Claim C7: the xTokens backend rejects a prepared beneficiary whose
`parents` is non-zero with the interior-location-required condition, and
otherwise builds its candidate transaction around a single destination
whose `parents` equals the prepared destination's `parents` and whose
interior is the prepared destination's junction sequence followed by the
prepared beneficiary's junction sequence. -/
theorem c7_xTokens_compose (prep : PreparedTransferParams)
    (estimate : Except Err FeeResult) :
    (prep.beneficiary.parents ≠ 0 →
      xTokensComposeTransfer prep estimate =
        .error (.beneficiaryNotInterior prep.beneficiary.parents)) ∧
    (prep.beneficiary.parents = 0 →
      ∀ tx, xTokensComposeTransfer prep estimate = .ok tx →
        tx.destination.parents = prep.destination.parents ∧
        tx.destination.interior =
          toJunctions prep.destination.interior ++
            toJunctions prep.beneficiary.interior) := by
  constructor
  · intro h
    simp [xTokensComposeTransfer, h]
  · intro h tx htx
    simp only [xTokensComposeTransfer, h, ne_eq, not_true_eq_false,
      if_false, ite_false] at htx
    cases estimate with
    | error e => simp at htx
    | ok result =>
        simp only [Except.ok.injEq] at htx
        subst htx
        exact ⟨rfl, rfl⟩

/-- Witness for C7: a beneficiary with `parents = 1` is rejected, and with
`parents = 0` the built transaction's destination has the destination's
`parents` and the concatenated interior. -/
theorem c7_xTokens_compose_witness :
    xTokensComposeTransfer
        { origin := .system "0xaa",
          assets := { version := 4, assets := [] }, feeAssetId := { parents := 0, interior := [] },
          feeAssetIndex := 0,
          feeAnyAssetRef := { id := { parents := 0, interior := [] }, fun_ := .fungible 1 },
          destination := { parents := 1, interior := [{ tag := 7 }] },
          beneficiary := { parents := 1, interior := [] } }
        (.ok (.value 0)) =
      .error (.beneficiaryNotInterior 1) ∧
    ({ assets := { version := 4, assets := [] }, feeAssetIndex := 0,
       destination := { parents := 1, interior := [{ tag := 7 }, { tag := 3 }] } } : XTokensTx).destination.interior =
      toJunctions [{ tag := 7 }] ++ toJunctions [{ tag := 3 }] := by
  constructor
  · exact (c7_xTokens_compose
      { origin := .system "0xaa",
        assets := { version := 4, assets := [] }, feeAssetId := { parents := 0, interior := [] },
        feeAssetIndex := 0,
        feeAnyAssetRef := { id := { parents := 0, interior := [] }, fun_ := .fungible 1 },
        destination := { parents := 1, interior := [{ tag := 7 }] },
        beneficiary := { parents := 1, interior := [] } }
      (.ok (.value 0))).1 (by decide)
  · exact ((c7_xTokens_compose
      { origin := .system "0xaa",
        assets := { version := 4, assets := [] }, feeAssetId := { parents := 0, interior := [] },
        feeAssetIndex := 0,
        feeAnyAssetRef := { id := { parents := 0, interior := [] }, fun_ := .fungible 1 },
        destination := { parents := 1, interior := [{ tag := 7 }] },
        beneficiary := { parents := 0, interior := [{ tag := 3 }] } }
      (.ok (.value 0))).2 rfl _ rfl).2

/-- Concrete prepared parameters for the C1 convergence scenario: the fee
asset (index 0) starts with fungible amount 10. -/
def prepScenarioC1 : PreparedTransferParams :=
  { origin := .system "0xaa",
    assets := { version := 4,
                assets := [{ id := { parents := 0, interior := [] },
                             fun_ := .fungible 10 }] },
    feeAssetId := { parents := 0, interior := [] },
    feeAssetIndex := 0,
    feeAnyAssetRef := { id := { parents := 0, interior := [] },
                        fun_ := .fungible 10 },
    destination := { parents := 1, interior := [{ tag := 7 }] },
    beneficiary := { parents := 0, interior := [{ tag := 3 }] } }

/-- The C1 scenario's expected final state: the fee asset's amount has
grown from 10 to 15, an increase of exactly 5 = 3 + 2 (+ 0). -/
def prepScenarioC1Final : PreparedTransferParams :=
  { prepScenarioC1 with
    assets := { version := 4,
                assets := [{ id := { parents := 0, interior := [] },
                             fun_ := .fungible 15 }] },
    feeAnyAssetRef := { id := { parents := 0, interior := [] },
                        fun_ := .fungible 15 } }

/-- Claim C1: in the pallet-xcm backend's fee convergence loop, every
shortfall response adds its missing amount to the fee asset's amount and
re-estimates, and the first concrete fee value adds that value and
terminates the loop without consuming any further estimator response; in
particular the shortfall script 3, 2 followed by concrete value 0 ends
after the third call with the fee asset's amount increased by exactly
5 = 3 + 2. -/
theorem c1_fee_convergence :
    (∀ (prep : PreparedTransferParams) (shortfalls : List Int) (v : Int)
        (rest : List (Except Err FeeResult)),
      feeConvergenceLoop prep
          (shortfalls.map (fun m => Except.ok (FeeResult.error m)) ++
            Except.ok (FeeResult.value v) :: rest) =
        .converged (addToFeeAsset prep (shortfalls.sum + v)) rest) ∧
    feeConvergenceLoop prepScenarioC1
        [.ok (.error 3), .ok (.error 2), .ok (.value 0)] =
      .converged prepScenarioC1Final [] := by
  constructor
  · intro prep shortfalls v rest
    induction shortfalls generalizing prep with
    | nil => simp [feeConvergenceLoop]
    | cons m ms ih =>
        simp [feeConvergenceLoop, ih, addToFeeAsset_addToFeeAsset,
          add_assoc]
  · rfl

/-- Claim C5: the fee convergence loop mutates only the fungible amount of
the designated fee-asset entry: between loop entry and loop exit the
origin, destination, beneficiary, fee asset id, fee asset index, the
vector's version, its length, every entry at an index other than the fee
asset index, and every entry's id (hence the sort order, which never
orders by amount) are unchanged. -/
theorem c5_fee_loop_frame (prep prep' : PreparedTransferParams)
    (responses rest : List (Except Err FeeResult))
    (h : feeConvergenceLoop prep responses = .converged prep' rest) :
    prep'.origin = prep.origin ∧
    prep'.destination = prep.destination ∧
    prep'.beneficiary = prep.beneficiary ∧
    prep'.feeAssetId = prep.feeAssetId ∧
    prep'.feeAssetIndex = prep.feeAssetIndex ∧
    prep'.assets.version = prep.assets.version ∧
    prep'.assets.assets.length = prep.assets.assets.length ∧
    (∀ j : Nat, j ≠ prep.feeAssetIndex →
      prep'.assets.assets[j]? = prep.assets.assets[j]?) ∧
    (∀ j : Nat, (prep'.assets.assets[j]?).map Asset.id =
      (prep.assets.assets[j]?).map Asset.id) := by
  obtain ⟨delta, rfl⟩ :=
    feeConvergenceLoop_converged_shape responses prep prep' rest h
  refine ⟨rfl, rfl, rfl, rfl, rfl, rfl, ?_, ?_, ?_⟩
  · simpa [addToFeeAsset] using
      addAtIndex_length prep.assets.assets prep.feeAssetIndex delta
  · intro j hj
    simpa [addToFeeAsset] using
      addAtIndex_getElem_ne prep.assets.assets prep.feeAssetIndex j delta hj
  · intro j
    simpa [addToFeeAsset] using
      addAtIndex_getElem_id prep.assets.assets prep.feeAssetIndex j delta

/-- Concrete prepared parameters for the C5 witness: two entries, fee asset
at index 0. -/
def prepC5 : PreparedTransferParams :=
  { origin := .system "0xbb",
    assets := { version := 4,
                assets := [{ id := { parents := 0, interior := [] },
                             fun_ := .fungible 20 },
                           { id := { parents := 1, interior := [] },
                             fun_ := .fungible 99 }] },
    feeAssetId := { parents := 0, interior := [] },
    feeAssetIndex := 0,
    feeAnyAssetRef := { id := { parents := 0, interior := [] },
                        fun_ := .fungible 20 },
    destination := { parents := 1, interior := [{ tag := 7 }] },
    beneficiary := { parents := 0, interior := [{ tag := 3 }] } }

/-- Witness for C5: a one-response run that converges leaves the
destination, the fee asset index and the non-fee entry untouched. -/
theorem c5_fee_loop_frame_witness :
    (addToFeeAsset prepC5 1).destination = prepC5.destination ∧
    (addToFeeAsset prepC5 1).feeAssetIndex = prepC5.feeAssetIndex ∧
    (addToFeeAsset prepC5 1).assets.assets[1]? = prepC5.assets.assets[1]? := by
  have h := c5_fee_loop_frame prepC5 (addToFeeAsset prepC5 1)
    [Except.ok (FeeResult.value 1)] [] rfl
  exact ⟨h.2.1, h.2.2.2.2.1, h.2.2.2.2.2.2.2.1 1 (by decide)⟩

/-- Claim C4: when the resolved, canonicalized asset vector contains no
asset whose id equals the resolved fee asset id, `prepareTransferParams`
fails with the fee-asset-not-part-of-transfer condition naming the chain;
when such an asset is present, the returned prepared parameters carry its
index in the canonical vector and the entry at exactly that index as the
fee-asset handle. -/
theorem c4_fee_asset_location (ctx : SimpleXcmCtx) (tp : TransferParams)
    (o : Origin) (dest ben fee : Location) (resolved : List Asset)
    (canonical : VersionedAssets)
    (horigin : tp.origin = .origin o)
    (hne : tp.assets.isEmpty = false)
    (hdest : resolveRelativeLocation ctx.registry ctx.identity
      tp.destination = .ok dest)
    (hben : resolveRelativeLocation ctx.registry ctx.identity
      tp.beneficiary = .ok ben)
    (hfee : resolveRelativeLocation ctx.registry ctx.identity
      tp.feeAssetId = .ok fee)
    (hres : resolveAssetList ctx.registry ctx.identity tp.assets =
      .ok resolved)
    (hcanon : prepareAssetsForEncoding ctx.xcmVersion resolved =
      .ok canonical) :
    ((∀ a ∈ canonical.assets, a.id ≠ fee) →
      prepareTransferParams ctx tp =
        ([], .error (.feeAssetNotFound ctx.identity.name))) ∧
    (∀ a i, findFeeAssetById fee canonical = some (a, i) →
      prepareTransferParams ctx tp =
        ([], .ok { origin := o, assets := canonical, feeAssetId := fee,
                   feeAssetIndex := i, feeAnyAssetRef := a,
                   destination := dest, beneficiary := ben }) ∧
      canonical.assets[i]? = some a ∧ a.id = fee) := by
  have hprep : prepareTransferParams ctx tp =
      ([], prepareTransferParamsPure ctx tp o) := by
    simp [prepareTransferParams, horigin, sanitizeTransferParams, hne]
  constructor
  · intro hnone
    have hfind : findFeeAssetById fee canonical = none :=
      (findFeeAssetByIdAux_eq_none_iff fee canonical.assets 0).mpr hnone
    rw [hprep]
    simp [prepareTransferParamsPure, hdest, hben, hfee, hres, hcanon, hfind]
  · intro a i hfind
    have haux := findFeeAssetByIdAux_some fee canonical.assets 0 a i hfind
    refine ⟨?_, by simpa using haux.2.1, haux.2.2⟩
    rw [hprep]
    simp [prepareTransferParamsPure, hdest, hben, hfee, hres, hcanon, hfind]

/-- Context for the C4 witness: no network capability and no named
locations are needed, all lookups are explicit. -/
def ctxC4 : SimpleXcmCtx :=
  { registry := { universalLocations := fun _ => none,
                  relativeLocations := fun _ => none },
    identity := { name := "TestChain", universalLocation := [] },
    xcmVersion := 4,
    hasLocationToAccountApi := false,
    convertLocation := fun _ => .error "" }

/-- Transfer request for the C4 witness: two assets given in non-canonical
order; the fee asset id matches the entry that sorts to index 0. -/
def tpC4 : TransferParams :=
  { origin := .origin (.system "0xbb"),
    assets := [{ id := .loc { parents := 1, interior := [] },
                 fun_ := .fungible 7 },
               { id := .loc { parents := 0, interior := [] },
                 fun_ := .fungible 5 }],
    feeAssetId := .loc { parents := 0, interior := [] },
    destination := .loc { parents := 1, interior := [{ tag := 7 }] },
    beneficiary := .loc { parents := 0, interior := [{ tag := 3 }] } }

/-- Witness for C4: the fee asset is found at index 0 of the canonical
(sorted) vector and returned as the handle; with a fee asset id matching
no transferred asset, preparation fails naming the chain. -/
theorem c4_fee_asset_location_witness :
    prepareTransferParams ctxC4 tpC4 =
      ([], .ok { origin := .system "0xbb",
                 assets := { version := 4,
                             assets := [{ id := { parents := 0, interior := [] },
                                          fun_ := .fungible 5 },
                                        { id := { parents := 1, interior := [] },
                                          fun_ := .fungible 7 }] },
                 feeAssetId := { parents := 0, interior := [] },
                 feeAssetIndex := 0,
                 feeAnyAssetRef := { id := { parents := 0, interior := [] },
                                     fun_ := .fungible 5 },
                 destination := { parents := 1, interior := [{ tag := 7 }] },
                 beneficiary := { parents := 0, interior := [{ tag := 3 }] } }) ∧
    prepareTransferParams ctxC4
        { tpC4 with feeAssetId := .loc { parents := 2, interior := [] } } =
      ([], .error (.feeAssetNotFound "TestChain")) := by
  constructor
  · exact ((c4_fee_asset_location ctxC4 tpC4 (.system "0xbb")
      { parents := 1, interior := [{ tag := 7 }] }
      { parents := 0, interior := [{ tag := 3 }] }
      { parents := 0, interior := [] }
      [{ id := { parents := 1, interior := [] }, fun_ := .fungible 7 },
       { id := { parents := 0, interior := [] }, fun_ := .fungible 5 }]
      { version := 4,
        assets := [{ id := { parents := 0, interior := [] },
                     fun_ := .fungible 5 },
                   { id := { parents := 1, interior := [] },
                     fun_ := .fungible 7 }] }
      rfl rfl rfl rfl rfl (by rfl) (by rfl)).2
      { id := { parents := 0, interior := [] }, fun_ := .fungible 5 } 0
      (by rfl)).1
  · exact (c4_fee_asset_location ctxC4
      { tpC4 with feeAssetId := .loc { parents := 2, interior := [] } }
      (.system "0xbb")
      { parents := 1, interior := [{ tag := 7 }] }
      { parents := 0, interior := [{ tag := 3 }] }
      { parents := 2, interior := [] }
      [{ id := { parents := 1, interior := [] }, fun_ := .fungible 7 },
       { id := { parents := 0, interior := [] }, fun_ := .fungible 5 }]
      { version := 4,
        assets := [{ id := { parents := 0, interior := [] },
                     fun_ := .fungible 5 },
                   { id := { parents := 1, interior := [] },
                     fun_ := .fungible 7 }] }
      rfl rfl rfl rfl rfl (by rfl) (by rfl)).1 (by decide)

/-- Claim C8: `#convertFungibleAmount` maps "1.5" at 10 decimals to exactly
15000000000; rejects "023" (leading zero) with the invalid-amount-format
condition; rejects "1.23456789012" at 10 decimals because the decimal part
is longer than the currency's decimals; and every successful result is the
exact arbitrary-precision integer denoted by the decimal string scaled by
10^decimals (stated denominator-free: result · 10^|fractionDigits| =
allDigits · 10^decimals). -/
theorem c8_convertFungibleAmount :
    convertFungibleAmount "1.5" 10 = .ok 15000000000 ∧
    convertFungibleAmount "023" 10 = .error .invalidAmountFormat ∧
    convertFungibleAmount "1.23456789012" 10 =
      .error (.decimalPartTooLong 11 10) ∧
    (∀ (amount : String) (decimals : Int) (v : Nat) (ip : List Char)
        (dpo : Option (List Char)),
      convertFungibleAmount amount decimals = .ok v →
      splitAmount amount.data = (ip, dpo) →
      v * 10 ^ (dpo.getD []).length =
        strNat (ip ++ dpo.getD []) * 10 ^ decimals.toNat) := by
  refine ⟨by rfl, by rfl, by rfl, ?_⟩
  intro amount decimals v ip dpo hok hsplit
  unfold convertFungibleAmount at hok
  by_cases hreg : numberRegExTest amount.data
  case neg => rw [if_pos (by simp [hreg])] at hok; exact Except.noConfusion hok
  case pos =>
  rw [if_neg (by simp [hreg]), hsplit] at hok
  dsimp only at hok
  by_cases hdec : decimals < 0 ∨ decimals > 38
  · rw [if_pos hdec] at hok
    exact Except.noConfusion hok
  · rw [if_neg hdec] at hok
    by_cases hlen :
        (padEnd (dpo.getD []) decimals.toNat '0').length > decimals.toNat
    · rw [if_pos hlen] at hok
      exact Except.noConfusion hok
    · rw [if_neg hlen] at hok
      injection hok with hv
      subst hv
      have hdple : (dpo.getD []).length ≤ decimals.toNat := by
        simp only [padEnd, List.length_append, List.length_replicate,
          gt_iff_lt, not_lt] at hlen
        omega
      have h1 : (dpo.getD []).length +
          (decimals.toNat - (dpo.getD []).length) = decimals.toNat := by omega
      have h2 : decimals.toNat - (dpo.getD []).length +
          (dpo.getD []).length = decimals.toNat := by omega
      rw [padEnd, strNat_append ip _, strNat_append (dpo.getD []) _,
        strNat_replicate_zero, List.length_append, List.length_replicate,
        strNat_append ip (dpo.getD []), h1, add_zero]
      calc (strNat ip * 10 ^ decimals.toNat +
              strNat (dpo.getD []) *
                10 ^ (decimals.toNat - (dpo.getD []).length)) *
            10 ^ (dpo.getD []).length
          = strNat ip * 10 ^ (dpo.getD []).length * 10 ^ decimals.toNat +
              strNat (dpo.getD []) *
                (10 ^ (decimals.toNat - (dpo.getD []).length) *
                  10 ^ (dpo.getD []).length) := by ring
        _ = strNat ip * 10 ^ (dpo.getD []).length * 10 ^ decimals.toNat +
              strNat (dpo.getD []) * 10 ^ decimals.toNat := by
              rw [← pow_add, h2]
        _ = (strNat ip * 10 ^ (dpo.getD []).length + strNat (dpo.getD [])) *
              10 ^ decimals.toNat := by ring

/-- Witness for C8: the exact-scaling law instantiated at "1.5" with 10
decimals — 15000000000 · 10^1 equals the digit string "15" read as a
number scaled by 10^10. -/
theorem c8_convertFungibleAmount_witness :
    15000000000 * 10 ^ ((some ['5']).getD []).length =
      strNat (['1'] ++ (some ['5']).getD []) * 10 ^ (10 : Int).toNat :=
  c8_convertFungibleAmount.2.2.2 "1.5" 10 15000000000 ['1'] (some ['5'])
    c8_convertFungibleAmount.1 (by rfl)

/-- Context for the C9 counterexample: the chain exposes the
location-to-account runtime API, the registry knows "Alice" as a relative
location, and the conversion oracle answers successfully. -/
def ctxC9 : SimpleXcmCtx :=
  { registry := { universalLocations := fun _ => none,
                  relativeLocations := fun key =>
                    if key = "Alice" then
                      some { parents := 0, interior := [{ tag := 9 }] }
                    else none },
    identity := { name := "TestChain", universalLocation := [] },
    xcmVersion := 4,
    hasLocationToAccountApi := true,
    convertLocation := fun _ => .ok "0xacc" }

/-- Request for the C9 counterexample: a string origin together with an
empty (hence structurally invalid) asset list. -/
def tpC9 : TransferParams :=
  { origin := .name "Alice",
    assets := [],
    feeAssetId := .loc { parents := 0, interior := [] },
    destination := .loc { parents := 0, interior := [] },
    beneficiary := .loc { parents := 0, interior := [] } }

/-- Counterexample to claim C9: on a structurally invalid request (empty
asset list) whose origin is a string lookup, `prepareTransferParams` does
fail with the validation error, but the location-to-account runtime call
has already been issued before validation — the emitted network trace is
non-empty. -/
theorem c9_network_before_validation_counterexample :
    sanitizeTransferParams tpC9 = .error .validationError ∧
    prepareTransferParams ctxC9 tpC9 =
      ([.locationToAccountCall { parents := 0, interior := [{ tag := 9 }] }],
        .error .validationError) ∧
    (prepareTransferParams ctxC9 tpC9).1 ≠ [] := by
  refine ⟨by rfl, by rfl, ?_⟩
  intro h
  rw [show (prepareTransferParams ctxC9 tpC9).1 =
      [.locationToAccountCall { parents := 0, interior := [{ tag := 9 }] }]
    from rfl] at h
  exact List.noConfusion h

/-- Claim C9 as amended: a structurally invalid request fails with the
validation error before any network interaction whenever the origin is an
explicit (non-string) origin; a string origin triggers the
location-to-account runtime call before structural validation runs.  No
fee-estimation dry-run is ever performed by `prepareTransferParams`. -/
theorem c9_validation_network_order (ctx : SimpleXcmCtx)
    (tp : TransferParams) (o : Origin) :
    (tp.origin = .origin o →
      sanitizeTransferParams tp = .error .validationError →
      prepareTransferParams ctx tp = ([], .error .validationError)) ∧
    NetEvent.dryRunCall ∉ (prepareTransferParams ctx tp).1 := by
  constructor
  · intro ho hv
    simp [prepareTransferParams, ho, hv]
  · exact prepareTransferParams_no_dryRun ctx tp

/-- Witness for C9's amended theorem: with an explicit origin and an empty
asset list, preparation fails with the validation error and an empty
network trace. -/
theorem c9_validation_network_order_witness :
    prepareTransferParams ctxC9
        { tpC9 with origin := .origin (.system "0xcc") } =
      ([], .error .validationError) :=
  (c9_validation_network_order ctxC9
    { tpC9 with origin := .origin (.system "0xcc") } (.system "0xcc")).1
    rfl rfl

end XcmTools
